import Mathlib

/-!
# Laconic-Applications-UI: verification of the record-list presentation pipeline

A shallow embedding of the logic of `src/components/Applist.tsx`,
`src/app/api/check-url/route.ts` and the deployment-detail page
(`AppDeploymentPage` / `UrlList` / `checkUrls`), followed by theorems that
settle the specification's claims about it.

Modelling conventions:
* JavaScript strings are Lean `String`s; `toLowerCase`, `split`,
  `startsWith` and `includes` are modelled on the character list
  (`jsToLower`, `jsSplit`, `jsStartsWith`, `jsIncludes`; the inputs of
  interest are ASCII).
* Timestamps (`new Date(x).getTime()`) are `Int` milliseconds; the calendar
  offset `setDate(getDate() - 30)` is modelled as a fixed 30-day millisecond
  offset (a fixed-length-day clock).
* `Buffer.from(hex, 'hex')` follows Node's lenient semantics: it decodes the
  longest valid leading sequence of hex digit pairs and silently drops the
  rest; it never throws.
* The `bech32` npm package's `toWords`/`encode` are embedded bit-for-bit
  (polymod checksum included); `encode`'s throw on exceeding the 90-character
  limit is an `Option.none`.
* Component state (`useState`) is explicit record state; an async fetch is a
  function from the response outcome to the successor state.
-/

/-- JavaScript `s.split(sep)` for a one-character separator, on the
character list: every separator occurrence cuts, so `""` gives `[""]` and
`","` gives `["", ""]`. -/
def jsSplitAux (sep : Char) : List Char → List Char → List String
  | [], acc => [String.mk acc.reverse]
  | c :: rest, acc =>
    if c = sep then String.mk acc.reverse :: jsSplitAux sep rest []
    else jsSplitAux sep rest (c :: acc)

/-- JavaScript `s.split(sep)` for a one-character separator. -/
def jsSplit (s : String) (sep : Char) : List String := jsSplitAux sep s.data []

/-- JavaScript `s.startsWith(p)`. -/
def jsStartsWith (s p : String) : Bool := p.data.isPrefixOf s.data

/-- JavaScript `s.toLowerCase()` on the ASCII range. -/
def jsToLower (s : String) : String := String.mk (s.data.map Char.toLower)

/-- One entry of a record's `attributes` array: a key plus the optional
`value.string` field (the only variant consumed downstream). -/
structure RecAttribute where
  key : String
  value : Option String
  deriving DecidableEq, Repr

/-- The `ApplicationRecord` interface of `Applist.tsx`, with timestamps
already parsed to integer milliseconds. -/
structure ApplicationRecord where
  id : String
  bondId : String
  createTime : Int
  expiryTime : Int
  names : List String
  owners : List String
  attributes : List RecAttribute
  deriving DecidableEq, Repr

/-- The `DeploymentRecord` interface of the detail page. -/
structure DeploymentRecord where
  id : String
  names : List String
  attributes : List RecAttribute
  deriving DecidableEq, Repr

/-- `getAuthority` from `Applist.tsx`: find the first name starting with
`lrn://`, split it on `/`, and return `parts[2] || 'Unknown'` (JavaScript
falsiness sends both a missing and an empty third segment to `"Unknown"`). -/
def getAuthority (names : List String) : String :=
  match names.find? (fun name => jsStartsWith name "lrn://") with
  | some lrnName =>
    let parts := jsSplit lrnName '/'
    match parts.get? 2 with
    | some p => if p = "" then "Unknown" else p
    | none => "Unknown"
  | none => "Unknown"

/-- Value of a single hex digit, or `none` for a non-hex character. -/
def hexDigit? (c : Char) : Option Nat :=
  if '0' ≤ c ∧ c ≤ '9' then some (c.toNat - '0'.toNat)
  else if 'a' ≤ c ∧ c ≤ 'f' then some (c.toNat - 'a'.toNat + 10)
  else if 'A' ≤ c ∧ c ≤ 'F' then some (c.toNat - 'A'.toNat + 10)
  else none

/-- Node's `Buffer.from(s, 'hex')` body: consume hex digit pairs from the
left, stopping (without error) at the first character that is not a hex digit
or at a trailing unpaired digit. -/
def hexDecodeAux : List Char → List Nat
  | c1 :: c2 :: rest =>
    match hexDigit? c1, hexDigit? c2 with
    | some hi, some lo => (16 * hi + lo) :: hexDecodeAux rest
    | _, _ => []
  | _ => []

/-- Node's `Buffer.from(s, 'hex')` as a byte list. -/
def hexDecode (s : String) : List Nat := hexDecodeAux s.data

/-- A string that is entirely valid hexadecimal: even length, all hex
digits. -/
def isHexString (s : String) : Bool :=
  s.data.all (fun c => (hexDigit? c).isSome) && s.length % 2 = 0

/-- The inner `while (bits >= outBits)` loop of the bech32 package's
`convert`, in closed form: the loop runs `bits / 5` times; its `i`-th pass
pushes `(value >> (bits - 5*(i+1))) & 31` and it leaves `bits % 5` bits. -/
def emitWords (value bits : Nat) : List Nat × Nat :=
  ((List.range (bits / 5)).map (fun i => (value >>> (bits - 5 * (i + 1))) % 32),
   bits % 5)

/-- The byte loop of `convert(data, 8, 5, true)`: shift each byte into the
accumulator and flush complete 5-bit groups. -/
def toWordsGo : List Nat → Nat → Nat → List Nat
  | [], value, bits => if 0 < bits then [(value <<< (5 - bits)) % 32] else []
  | b :: rest, value, bits =>
    let value2 := (value <<< 8) + b
    let bits2 := bits + 8
    let flushed := emitWords value2 bits2
    flushed.1 ++ toWordsGo rest value2 flushed.2

/-- `bech32.toWords`: repack 8-bit bytes into 5-bit groups, MSB first,
zero-padding the final group. -/
def toWords (bytes : List Nat) : List Nat := toWordsGo bytes 0 0

/-- One `polymodStep` of the bech32 checksum (30-bit state). -/
def polymodStep (pre : Nat) : Nat :=
  let b := pre >>> 25
  let x0 := (pre % 0x2000000) <<< 5
  let x1 := if b % 2 = 1 then x0 ^^^ 0x3b6a57b2 else x0
  let x2 := if (b >>> 1) % 2 = 1 then x1 ^^^ 0x26508e6d else x1
  let x3 := if (b >>> 2) % 2 = 1 then x2 ^^^ 0x1ea119fa else x2
  let x4 := if (b >>> 3) % 2 = 1 then x3 ^^^ 0x3d4233dd else x3
  if (b >>> 4) % 2 = 1 then x4 ^^^ 0x2a1462b3 else x4

/-- `prefixChk` of the bech32 package for a human-readable part whose
characters are all in the printable range (true of `"laconic"`): fold the
high bits, a separator step, then the low bits. -/
def hrpChk (hrp : String) : Nat :=
  let cs := hrp.data.map Char.toNat
  let chk1 := cs.foldl (fun chk c => polymodStep chk ^^^ (c >>> 5)) 1
  let chk2 := polymodStep chk1
  cs.foldl (fun chk c => polymodStep chk ^^^ (c % 32)) chk2

/-- The bech32 data-character alphabet. -/
def bech32Alphabet : List Char := "qpzry9x8gf2tvdw0s3jn54khce6mua7l".data

/-- `ALPHABET.charAt(x)` for a 5-bit word. -/
def alphaChar (x : Nat) : Char := bech32Alphabet.getD x 'q'

/-- Six `polymodStep`s, as run after the data words to make room for the
checksum. -/
def polymodStep6 (chk : Nat) : Nat :=
  polymodStep (polymodStep (polymodStep (polymodStep (polymodStep
    (polymodStep chk)))))

/-- `bech32.encode(hrp, words)` with the default 90-character limit.
`none` models the thrown `Exceeds length limit` / `Non 5-bit word` errors;
otherwise the result is `hrp ++ "1" ++ data characters ++ 6 checksum
characters`, with the checksum folded exactly as in the package. -/
def bech32Encode (hrp : String) (ws : List Nat) : Option String :=
  if hrp.length + 7 + ws.length > 90 then none
  else if ws.any (fun x => 32 ≤ x) then none
  else
    let chk0 := ws.foldl (fun chk x => polymodStep chk ^^^ x) (hrpChk hrp)
    let chk := polymodStep6 chk0 ^^^ 1
    let tail := (List.range 6).map (fun i => alphaChar ((chk >>> ((5 - i) * 5)) % 32))
    some (hrp ++ "1" ++ String.mk (ws.map alphaChar) ++ String.mk tail)

/-- `hexToBech32` from `Applist.tsx`: encode the (leniently) hex-decoded
bytes with human-readable part `"laconic"`; if encoding throws, return the
input unchanged. -/
def hexToBech32 (hexAddress : String) : String :=
  match bech32Encode "laconic" (toWords (hexDecode hexAddress)) with
  | some s => s
  | none => hexAddress

/-- JavaScript `s.includes(sub)`: `sub` occurs contiguously in `s`. -/
def jsIncludes (s sub : String) : Bool := decide (sub.data <:+: s.data)

/-- The `name` field used by the filter:
`app.attributes.find(attr => attr.key === 'name')?.value.string || ''`
(JavaScript falsiness collapses a missing attribute, a missing string variant
and the empty string to `""`). -/
def filterName (app : ApplicationRecord) : String :=
  ((app.attributes.find? (fun attr => attr.key == "name")).bind
    (fun attr => attr.value)).getD ""

/-- `app.owners[0] || ''`: the first owner address, or `""` when the owners
list is empty (or its head is the empty string). -/
def firstOwner (app : ApplicationRecord) : String := app.owners.headD ""

/-- The filter predicate of `filteredAndSortedApps`: the lower-cased search
term must occur in the lower-cased display name, derived authority, or
bech32-encoded first owner address. -/
def matchesSearch (searchTerm : String) (app : ApplicationRecord) : Bool :=
  let name := filterName app
  let authority := getAuthority app.names
  let owner := hexToBech32 (firstOwner app)
  let searchLower := jsToLower searchTerm
  jsIncludes (jsToLower name) searchLower ||
    jsIncludes (jsToLower authority) searchLower ||
    jsIncludes (jsToLower owner) searchLower

/-- The four sort keys of the `<select>`. -/
inductive SortOption where
  | time | name | authority | owner
  deriving DecidableEq, Repr

/-- `a.localeCompare(b)` modelled as code-point comparison (the locale is
irrelevant to every claim proved below, which only use the sort's
permutation property). -/
def strCmp (a b : String) : Int :=
  if a < b then -1 else if a = b then 0 else 1

/-- The sort comparator of `filteredAndSortedApps` (negative means `a`
before `b`). -/
def sortCmp (opt : SortOption) (a b : ApplicationRecord) : Int :=
  match opt with
  | .time => b.createTime - a.createTime
  | .name => strCmp (filterName a) (filterName b)
  | .authority => strCmp (getAuthority a.names) (getAuthority b.names)
  | .owner => strCmp (hexToBech32 (firstOwner a)) (hexToBech32 (firstOwner b))

/-- `filteredAndSortedApps`: filter by the search predicate, then stable-sort
by the chosen comparator (`Array.prototype.sort` is required to be stable;
`List.mergeSort` keeps elements whose comparison is `≤ 0` in order). -/
def filteredAndSortedApps (searchTerm : String) (opt : SortOption)
    (apps : List ApplicationRecord) : List ApplicationRecord :=
  (apps.filter (matchesSearch searchTerm)).mergeSort
    (fun a b => sortCmp opt a b ≤ 0)

/-- `stats.totalApps`. -/
def totalApps (apps : List ApplicationRecord) : Nat := apps.length

/-- `stats.uniqueAuthorities`: `new Set(apps.map(app =>
getAuthority(app.names))).size`. -/
def uniqueAuthorities (apps : List ApplicationRecord) : Nat :=
  ((apps.map (fun app => getAuthority app.names)).dedup).length

/-- Thirty days in milliseconds; `thirtyDaysAgo`/`thirtyDaysLater` are
`now ∓ thirtyDaysMs` under the fixed-length-day clock model. -/
def thirtyDaysMs : Int := 30 * 86400000

/-- `stats.recentlyCreated`: records whose `creationDate > thirtyDaysAgo`
(strict). -/
def recentlyCreated (now : Int) (apps : List ApplicationRecord) : Nat :=
  (apps.filter (fun app => decide (app.createTime > now - thirtyDaysMs))).length

/-- `stats.soonExpiring`: records whose `expiryDate < thirtyDaysLater`
(strict). -/
def soonExpiring (now : Int) (apps : List ApplicationRecord) : Nat :=
  (apps.filter (fun app => decide (app.expiryTime < now + thirtyDaysMs))).length

/-! ## Fetch orchestrator -/

/-- Outcome of one upstream POST, as seen by the `try` block: `ok` carries
the parsed record list; `errors` is an upstream-reported error payload
(whose `data` is unusable, so touching it throws inside the `try`);
`transportFailure` is a rejected request. -/
inductive UpstreamResponse (α : Type) where
  | ok : α → UpstreamResponse α
  | errors : UpstreamResponse α
  | transportFailure : UpstreamResponse α
  deriving DecidableEq, Repr

/-- The list view's `useState` state. -/
structure ListViewState where
  apps : List ApplicationRecord
  isLoading : Bool
  deriving DecidableEq, Repr

/-- `useState([])` / `useState(true)`. -/
def initialListViewState : ListViewState := { apps := [], isLoading := true }

/-- `fetchApps` from `Applist.tsx` as a state transition: `setIsLoading(true)`,
then the `try` (`setApps` on success; a caught and logged error otherwise),
then the `finally` (`setIsLoading(false)`). -/
def runFetchApps (st : ListViewState)
    (response : UpstreamResponse (List ApplicationRecord)) : ListViewState :=
  let st1 := { st with isLoading := true }
  match response with
  | .ok apps => { st1 with apps := apps, isLoading := false }
  | .errors => { st1 with isLoading := false }
  | .transportFailure => { st1 with isLoading := false }

/-- The detail view's deployment-list state. -/
structure DetailViewState where
  deployments : List DeploymentRecord
  isLoading : Bool
  deriving DecidableEq, Repr

/-- `useState([])` / `useState(true)` on the detail page. -/
def initialDetailViewState : DetailViewState :=
  { deployments := [], isLoading := true }

/-- `fetchDeployments` from the detail page as a state transition: on a
payload with `data.errors` the code logs and throws, the `catch` swallows
it; the `finally` clears `isLoading` in every case. -/
def runFetchDeployments (st : DetailViewState)
    (response : UpstreamResponse (List DeploymentRecord)) : DetailViewState :=
  match response with
  | .ok ds => { st with deployments := ds, isLoading := false }
  | .errors => { st with isLoading := false }
  | .transportFailure => { st with isLoading := false }

/-! ## /check-url route -/

/-- A HEAD probe outcome: `.ok status` is a completed response with the
given status code, `.error` a transport failure (rejected fetch). -/
abbrev HeadResult := Except Unit Nat

/-- `response.ok` of the Fetch API: status in the inclusive range 200–299. -/
def responseOk (status : Nat) : Bool := 200 ≤ status && status < 300

/-- What the `/check-url` handler replies: HTTP status plus the JSON body
fields (`isAvailable` or `error`). -/
structure CheckUrlReply where
  status : Nat
  isAvailable : Option Bool
  errorMsg : Option String
  deriving DecidableEq, Repr

/-- The `GET` handler of `src/app/api/check-url/route.ts`.
`url` is `searchParams.get('url')` (`none` when absent); the JavaScript
guard `if (!url)` also catches the present-but-empty parameter. `head`
supplies the outcome of `fetch(url, { method: 'HEAD' })`. -/
def checkUrlGET (url : Option String) (head : String → HeadResult) :
    CheckUrlReply :=
  match url with
  | none =>
    { status := 400, isAvailable := none,
      errorMsg := some "URL parameter is required" }
  | some u =>
    if u = "" then
      { status := 400, isAvailable := none,
        errorMsg := some "URL parameter is required" }
    else
      match head u with
      | .ok code =>
        { status := 200, isAvailable := some (responseOk code),
          errorMsg := none }
      | .error _ =>
        { status := 200, isAvailable := some false, errorMsg := none }

/-! ## URL reachability prober -/

/-- The tri-state per-URL probe status. -/
inductive UrlStatus where
  | checking | available | unavailable
  deriving DecidableEq, Repr

/-- The `urlStatuses` JavaScript object: an insertion-ordered key→status
association with later assignments overwriting in place. -/
abbrev StatusMap := List (String × UrlStatus)

/-- JavaScript object assignment `m[url] = s`: overwrite in place if the key
exists, else append. -/
def setStatus (m : StatusMap) (url : String) (s : UrlStatus) : StatusMap :=
  if m.any (fun p => p.1 == url) then
    m.map (fun p => if p.1 == url then (p.1, s) else p)
  else m ++ [(url, s)]

/-- `m[url]` as an option. -/
def getStatus (m : StatusMap) (url : String) : Option UrlStatus :=
  (m.find? (fun p => p.1 == url)).map (fun p => p.2)

/-- The `url` attribute's string value, with JavaScript falsiness: a missing
attribute, a missing string variant and the empty string all yield `""`
(and fail the `if (urlAttribute && urlAttribute.value.string)` guard). -/
def urlString (d : DeploymentRecord) : String :=
  ((d.attributes.find? (fun attr => attr.key == "url")).bind
    (fun attr => attr.value)).getD ""

/-- The URLs the prober works on: the comma-split of the `url` attribute
when the guard passes, nothing otherwise. -/
def extractUrls (d : DeploymentRecord) : List String :=
  if urlString d = "" then [] else jsSplit (urlString d) ','

/-- `UrlList` renders the `No URLs available` fallback exactly when the
guard fails. -/
def showsNoUrlsFallback (d : DeploymentRecord) : Bool := urlString d = ""

/-- `Object.fromEntries(urls.map(url => [url, 'checking']))`. -/
def initialStatuses (urls : List String) : StatusMap :=
  urls.foldl (fun m u => setStatus m u .checking) []

/-- How one loop iteration resolves a URL: the fetched body's
`data.isAvailable` picks `available`/`unavailable`; a thrown fetch
(`none`) is `unavailable`. -/
def resolvedStatus (r : Option Bool) : UrlStatus :=
  match r with
  | some true => .available
  | some false => .unavailable
  | none => .unavailable

/-- The successive values taken by `urlStatuses` during `checkUrls`:
the initial all-`checking` map, then one update per URL in order. `probe`
gives each URL's outcome (`none` = the fetch threw). When the guard fails
the state is just the initial empty object. -/
def checkUrlsTrace (d : DeploymentRecord) (probe : String → Option Bool) :
    List StatusMap :=
  let urls := extractUrls d
  let init := initialStatuses urls
  init :: (urls.foldl
    (fun (acc : StatusMap × List StatusMap) u =>
      let m := setStatus acc.1 u (resolvedStatus (probe u))
      (m, acc.2 ++ [m]))
    (init, [])).2

/-! ## Concrete fixtures used by counterexamples and witnesses -/

/-- A record with an empty owners list whose name and authority do not
contain `laconic`. -/
def emptyOwnerRecord : ApplicationRecord :=
  { id := "r0", bondId := "", createTime := 0, expiryTime := 0,
    names := ["x"], owners := [],
    attributes := [⟨"name", some "myapp"⟩] }

/-- A deployment record whose `url` attribute is `"http://a,http://b"`. -/
def twoUrlDeployment : DeploymentRecord :=
  { id := "dep", names := [],
    attributes := [⟨"url", some "http://a,http://b"⟩] }

/-- A deployment record whose `url` attribute ends in a comma, producing an
empty segment. -/
def trailingCommaDeployment : DeploymentRecord :=
  { id := "dep2", names := [], attributes := [⟨"url", some "http://a,"⟩] }

/-- A deployment record with no attributes at all. -/
def noUrlDeployment : DeploymentRecord :=
  { id := "dep3", names := [], attributes := [] }

/-- A record created far in the future (relative to `now = 0`). -/
def futureRecord : ApplicationRecord :=
  { id := "fut", bondId := "", createTime := 10 ^ 12, expiryTime := 10 ^ 12,
    names := [], owners := [], attributes := [] }

/-- A record sitting exactly on both 30-day boundaries for
`now = thirtyDaysMs`. -/
def boundaryRecord : ApplicationRecord :=
  { id := "bnd", bondId := "", createTime := 0,
    expiryTime := 2 * thirtyDaysMs, names := [], owners := [],
    attributes := [] }

/-! ## Claims -/

/-- C1, counterexample: the first name of `["lrn://foo/bar/baz"]` splits on
`/` into `["lrn:", "", "foo", "bar", "baz"]`, so `getAuthority` returns the
zero-based index-2 segment `"foo"`, not `"bar"` as the claim's scenario
states. -/
theorem C1_counterexample :
    getAuthority ["lrn://foo/bar/baz"] = "foo" ∧
    getAuthority ["lrn://foo/bar/baz"] ≠ "bar" := by decide

/-- C1, amended: `getAuthority ["lrn://foo/bar/baz"] = "foo"` (the zero-based
index-2 segment of the split, which sits right after the scheme and the empty
segment produced by `//`); `getAuthority ["nope"] = "Unknown"`; in general
the first `lrn://`-prefixed name is split on `/` and the index-2 segment
returned, with `"Unknown"` when no such name exists, when the split has
fewer than 3 segments, or when the index-2 segment is empty. -/
theorem C1_getAuthority_spec :
    getAuthority ["lrn://foo/bar/baz"] = "foo" ∧
    getAuthority ["nope"] = "Unknown" ∧
    (∀ names : List String,
      names.find? (fun name => jsStartsWith name "lrn://") = none →
      getAuthority names = "Unknown") ∧
    (∀ (names : List String) (n : String),
      names.find? (fun name => jsStartsWith name "lrn://") = some n →
      ((jsSplit n '/').get? 2 = none ∨ (jsSplit n '/').get? 2 = some "") →
      getAuthority names = "Unknown") ∧
    (∀ (names : List String) (n p : String),
      names.find? (fun name => jsStartsWith name "lrn://") = some n →
      (jsSplit n '/').get? 2 = some p → p ≠ "" →
      getAuthority names = p) := by
  refine ⟨by decide, by decide, ?_, ?_, ?_⟩
  · intro names h
    simp [getAuthority, h]
  · intro names n h h2
    rcases h2 with h2 | h2 <;> rw [List.get?_eq_getElem?] at h2 <;>
      simp [getAuthority, h, h2]
  · intro names n p h h2 hp
    rw [List.get?_eq_getElem?] at h2
    simp [getAuthority, h, h2, hp]

/-- C1 witness: the general branch of the amended theorem applied to the
concrete record name. -/
theorem C1_getAuthority_spec_witness :
    (["lrn://foo/bar/baz"].find? (fun name => jsStartsWith name "lrn://") =
      some "lrn://foo/bar/baz") ∧
    ((jsSplit "lrn://foo/bar/baz" '/').get? 2 = some "foo") ∧
    "foo" ≠ "" ∧
    getAuthority ["lrn://foo/bar/baz"] = "foo" :=
  ⟨by decide, by decide, by decide,
    C1_getAuthority_spec.2.2.2.2 ["lrn://foo/bar/baz"] "lrn://foo/bar/baz"
      "foo" (by decide) (by decide) (by decide)⟩

/-- C2, counterexample: `"zz"` is not valid hexadecimal, yet `hexToBech32`
does not return it unchanged: Node's `Buffer.from('zz', 'hex')` silently
decodes to the empty byte string, which bech32-encodes to
`"laconic16d9tz8"`. -/
theorem C2_counterexample :
    isHexString "zz" = false ∧
    hexToBech32 "zz" ≠ "zz" ∧
    hexToBech32 "zz" = "laconic16d9tz8" ∧
    hexToBech32 "zz" = hexToBech32 "" := by decide

/-- Any successful `bech32Encode` output starts with the human-readable
part followed by the separator `1`. -/
theorem bech32Encode_shape (hrp : String) (ws : List Nat) (out : String) :
    bech32Encode hrp ws = some out → ∃ t, out = hrp ++ "1" ++ t := by
  unfold bech32Encode
  split
  · intro h; cases h
  · split
    · intro h; cases h
    · intro h
      simp only [Option.some.injEq] at h
      subst h
      exact ⟨_, String.append_assoc _ _ _⟩

/-- C2, amended: `hexToBech32` never raises: for every input it either
returns the input unchanged (the fail-open branch, reached only when bech32
encoding itself fails on the 90-character limit) or returns a bech32 string
`"laconic1..."`. A non-hex input is in general NOT returned unchanged:
Node's lenient hex decoding reduces it to its longest valid prefix of hex
digit pairs (possibly empty) and that prefix is encoded. -/
theorem C2_hexToBech32_total :
    ∀ s : String,
      hexToBech32 s = s ∨ ∃ t, hexToBech32 s = "laconic1" ++ t := by
  intro s
  cases h : bech32Encode "laconic" (toWords (hexDecode s)) with
  | none => left; simp [hexToBech32, h]
  | some out =>
    right
    obtain ⟨t, ht⟩ := bech32Encode_shape _ _ _ h
    exact ⟨t, by simp [hexToBech32, h, ht]⟩

/-- C3, counterexample: a record with an empty owners list does not
contribute `""` as its owner field: the code computes
`hexToBech32(owners[0] || '')`, i.e. the bech32 encoding of the empty byte
string `"laconic16d9tz8"`. The search term `"laconic"` occurs in none of the
claim's three fields (display name `"myapp"`, authority `"Unknown"`, owner
`""`), yet the record passes the filter. -/
theorem C3_counterexample :
    matchesSearch "laconic" emptyOwnerRecord = true ∧
    emptyOwnerRecord.owners = [] ∧
    jsIncludes (jsToLower (filterName emptyOwnerRecord))
      (jsToLower "laconic") = false ∧
    jsIncludes (jsToLower (getAuthority emptyOwnerRecord.names))
      (jsToLower "laconic") = false ∧
    jsIncludes (jsToLower "") (jsToLower "laconic") = false := by decide

/-- C3, amended: a record appears in the filtered-and-sorted output iff it
is in the input and the lower-cased search term occurs in its lower-cased
display name, derived authority, or `hexToBech32` of its first owner
address, where an empty owners list yields `hexToBech32 "" =
"laconic16d9tz8"` (so such a record's owner field matches `"laconic"`-like
terms, not just the empty term). -/
theorem C3_filter_characterization :
    ∀ (term : String) (opt : SortOption) (apps : List ApplicationRecord)
      (r : ApplicationRecord),
      r ∈ filteredAndSortedApps term opt apps ↔
        r ∈ apps ∧
          (jsIncludes (jsToLower (filterName r)) (jsToLower term) = true ∨
           jsIncludes (jsToLower (getAuthority r.names)) (jsToLower term) = true ∨
           jsIncludes (jsToLower (hexToBech32 (firstOwner r)))
             (jsToLower term) = true) := by
  intro term opt apps r
  unfold filteredAndSortedApps
  rw [List.mem_mergeSort, List.mem_filter]
  unfold matchesSearch
  simp [Bool.or_eq_true, or_assoc]

/-- C5: `totalApps` is the record count and `uniqueAuthorities` is the
cardinality of the set of derived authorities (the `"Unknown"` fallback
being one countable value like any other). -/
theorem C5_stats_counts :
    ∀ apps : List ApplicationRecord,
      totalApps apps = apps.length ∧
      uniqueAuthorities apps =
        ((apps.map (fun r => getAuthority r.names)).toFinset).card := by
  intro apps
  exact ⟨rfl, (List.card_toFinset _).symm⟩

/-- C4: for a deployment whose `url` attribute is `"http://a,http://b"`, the
prober extracts exactly those two URLs, keys both `checking` initially, and
resolves each in order to the terminal state determined by its probe
outcome; no extracted URL is dropped, and every resolution is terminal
(`available` or `unavailable`), never `checking`. -/
theorem C4_prober_trace :
    ∀ probe : String → Option Bool,
      extractUrls twoUrlDeployment = ["http://a", "http://b"] ∧
      checkUrlsTrace twoUrlDeployment probe =
        [[("http://a", .checking), ("http://b", .checking)],
         [("http://a", resolvedStatus (probe "http://a")),
          ("http://b", .checking)],
         [("http://a", resolvedStatus (probe "http://a")),
          ("http://b", resolvedStatus (probe "http://b"))]] ∧
      (∀ r : Option Bool, resolvedStatus r ≠ .checking ∧
        (resolvedStatus r = .available ∨ resolvedStatus r = .unavailable)) := by
  intro probe
  refine ⟨by decide, rfl, ?_⟩
  intro r
  rcases r with _ | _ | _
  · exact ⟨by decide, Or.inr rfl⟩
  · exact ⟨by decide, Or.inr rfl⟩
  · exact ⟨by decide, Or.inl rfl⟩

/-- C6, counterexample: a record created far in the future (`createTime =
10^12` ms with `now = 0`) does not lie within the last 30 days before now,
yet `recentlyCreated` counts it — the code has no upper bound on the
creation time. -/
theorem C6_counterexample :
    recentlyCreated 0 [futureRecord] = 1 ∧
    ¬((0 : Int) - thirtyDaysMs < futureRecord.createTime ∧
      futureRecord.createTime ≤ 0) := by decide

/-- C6, amended: a record is counted by `recentlyCreated` iff its creation
time is strictly later than `now` minus 30 days (future creation times
included — there is no upper bound); the exact-boundary record is excluded.
Symmetrically, `soonExpiring` counts a record iff its expiry time is
strictly earlier than `now` plus 30 days (already-expired records
included), excluding the exact boundary. -/
theorem C6_recency_windows :
    ∀ (now : Int) (r : ApplicationRecord),
      (recentlyCreated now [r] = 1 ↔ now - thirtyDaysMs < r.createTime) ∧
      (r.createTime = now - thirtyDaysMs → recentlyCreated now [r] = 0) ∧
      (soonExpiring now [r] = 1 ↔ r.expiryTime < now + thirtyDaysMs) ∧
      (r.expiryTime = now + thirtyDaysMs → soonExpiring now [r] = 0) := by
  intro now r
  have hr : recentlyCreated now [r] =
      if now - thirtyDaysMs < r.createTime then 1 else 0 := by
    unfold recentlyCreated
    by_cases h : now - thirtyDaysMs < r.createTime <;> simp [h]
  have hs : soonExpiring now [r] =
      if r.expiryTime < now + thirtyDaysMs then 1 else 0 := by
    unfold soonExpiring
    by_cases h : r.expiryTime < now + thirtyDaysMs <;> simp [h]
  refine ⟨?_, ?_, ?_, ?_⟩
  · rw [hr]; by_cases h : now - thirtyDaysMs < r.createTime <;> simp [h]
  · intro he; rw [hr, he]; simp
  · rw [hs]; by_cases h : r.expiryTime < now + thirtyDaysMs <;> simp [h]
  · intro he; rw [hs, he]; simp

/-- C6 witness: the amended theorem applied at the exact-boundary record
with `now = thirtyDaysMs`. -/
theorem C6_recency_windows_witness :
    boundaryRecord.createTime = thirtyDaysMs - thirtyDaysMs ∧
    recentlyCreated thirtyDaysMs [boundaryRecord] = 0 ∧
    boundaryRecord.expiryTime = thirtyDaysMs + thirtyDaysMs ∧
    soonExpiring thirtyDaysMs [boundaryRecord] = 0 :=
  ⟨by decide,
   (C6_recency_windows thirtyDaysMs boundaryRecord).2.1 (by decide),
   by decide,
   (C6_recency_windows thirtyDaysMs boundaryRecord).2.2.2 (by decide)⟩

/-- C7: both fetch orchestrators clear the loading flag in every outcome,
and in every non-success outcome (transport failure, or an upstream error
payload whose handling throws inside the `try`) the exposed record list is
the initial empty list; on success it is the fetched data. -/
theorem C7_fetch_error_boundary :
    ∀ (resp : UpstreamResponse (List ApplicationRecord))
      (respD : UpstreamResponse (List DeploymentRecord)),
      (runFetchApps initialListViewState resp).isLoading = false ∧
      runFetchApps initialListViewState .errors =
        { apps := [], isLoading := false } ∧
      runFetchApps initialListViewState .transportFailure =
        { apps := [], isLoading := false } ∧
      (∀ records, runFetchApps initialListViewState (.ok records) =
        { apps := records, isLoading := false }) ∧
      (runFetchDeployments initialDetailViewState respD).isLoading = false ∧
      runFetchDeployments initialDetailViewState .errors =
        { deployments := [], isLoading := false } ∧
      runFetchDeployments initialDetailViewState .transportFailure =
        { deployments := [], isLoading := false } := by
  intro resp respD
  refine ⟨?_, rfl, rfl, fun records => rfl, ?_, rfl, rfl⟩
  · cases resp <;> rfl
  · cases respD <;> rfl

/-- C8, counterexample: a present-but-empty `url` query parameter
(`GET /check-url?url=`) is not missing, yet the handler's JavaScript
falsiness guard `if (!url)` also rejects it with HTTP 400 instead of the
claimed HTTP-success `{ isAvailable: b }` body. -/
theorem C8_counterexample :
    (checkUrlGET (some "") (fun _ => .ok 200)).status = 400 ∧
    (checkUrlGET (some "") (fun _ => .ok 200)).isAvailable = none := by
  decide

/-- C8, amended: a missing — or present but empty — `url` parameter yields
HTTP 400 with an error body; otherwise the reply is HTTP 200 with
`isAvailable` true iff the HEAD request completed without transport error
and with a success status (`response.ok`, i.e. status in 200–299), and
`isAvailable: false` (still HTTP 200) on transport failure. -/
theorem C8_route_spec :
    ∀ (head : String → HeadResult) (u : String),
      (checkUrlGET none head).status = 400 ∧
      (checkUrlGET none head).errorMsg = some "URL parameter is required" ∧
      (checkUrlGET (some "") head).status = 400 ∧
      (u ≠ "" → ∀ code, head u = .ok code →
        checkUrlGET (some u) head =
          { status := 200, isAvailable := some (responseOk code),
            errorMsg := none }) ∧
      (u ≠ "" → head u = .error () →
        checkUrlGET (some u) head =
          { status := 200, isAvailable := some false, errorMsg := none }) ∧
      (∀ code, responseOk code = true ↔ (200 ≤ code ∧ code < 300)) := by
  intro head u
  refine ⟨rfl, rfl, rfl, ?_, ?_, ?_⟩
  · intro hu code hc
    simp [checkUrlGET, hu, hc]
  · intro hu hc
    simp [checkUrlGET, hu, hc]
  · intro code
    simp [responseOk]

/-- C8 witness: the amended theorem applied to a nonempty URL whose HEAD
probe completes with status 204. -/
theorem C8_route_spec_witness :
    ("http://x" : String) ≠ "" ∧
    checkUrlGET (some "http://x") (fun _ => .ok 204) =
      { status := 200, isAvailable := some (responseOk 204),
        errorMsg := none } :=
  ⟨by decide,
   (C8_route_spec (fun _ => .ok 204) "http://x").2.2.2.1 (by decide) 204 rfl⟩

/-- C9: with the empty search term every record passes the filter (the
empty string occurs in every field), so the filtered-and-sorted output is a
permutation of the input record set. -/
theorem C9_empty_search_identity :
    ∀ (opt : SortOption) (apps : List ApplicationRecord),
      (∀ r ∈ apps, matchesSearch "" r = true) ∧
      (filteredAndSortedApps "" opt apps).Perm apps := by
  intro opt apps
  have hm : ∀ r : ApplicationRecord, matchesSearch "" r = true := by
    intro r
    have h0 : jsToLower "" = "" := rfl
    have h1 : ("" : String).data = [] := rfl
    simp [matchesSearch, h0, jsIncludes, h1, List.nil_infix]
  refine ⟨fun r _ => hm r, ?_⟩
  unfold filteredAndSortedApps
  rw [List.filter_eq_self.mpr (fun a _ => hm a)]
  exact List.mergeSort_perm apps _

/-- C9 witness: the theorem applied to a concrete one-record set. -/
theorem C9_empty_search_identity_witness :
    emptyOwnerRecord ∈ [emptyOwnerRecord] ∧
    matchesSearch "" emptyOwnerRecord = true ∧
    (filteredAndSortedApps "" .time [emptyOwnerRecord]).Perm
      [emptyOwnerRecord] :=
  ⟨by decide,
   (C9_empty_search_identity .time [emptyOwnerRecord]).1 emptyOwnerRecord
     (by decide),
   (C9_empty_search_identity .time [emptyOwnerRecord]).2⟩

/-- C10, counterexample: the empty string CAN be probed as a URL — a
nonempty `url` attribute with a trailing comma (`"http://a,"`) passes the
guard, splits into `["http://a", ""]`, and the empty string receives a
`checking` entry and is resolved like any other URL. -/
theorem C10_counterexample :
    "" ∈ extractUrls trailingCommaDeployment ∧
    getStatus (initialStatuses (extractUrls trailingCommaDeployment)) "" =
      some .checking ∧
    (checkUrlsTrace trailingCommaDeployment (fun _ => some true)).getLast? =
      some [("http://a", .available), ("", .available)] := by decide

/-- C10, amended: when a deployment record has no `url` attribute or its
string value is empty, no URL is extracted, the status map stays empty
through the whole trace, and the `No URLs available` fallback is shown.
(When the value is nonempty, however, empty comma-segments are probed.) -/
theorem C10_no_url_no_probe :
    ∀ (d : DeploymentRecord) (probe : String → Option Bool),
      urlString d = "" →
      extractUrls d = [] ∧ checkUrlsTrace d probe = [[]] ∧
      showsNoUrlsFallback d = true := by
  intro d probe h
  have he : extractUrls d = [] := by simp [extractUrls, h]
  refine ⟨he, ?_, ?_⟩
  · simp [checkUrlsTrace, he, initialStatuses]
  · simp [showsNoUrlsFallback, h]

/-- C10 witness: the amended theorem applied to a deployment record with no
attributes. -/
theorem C10_no_url_no_probe_witness :
    urlString noUrlDeployment = "" ∧
    (extractUrls noUrlDeployment = [] ∧
      checkUrlsTrace noUrlDeployment (fun _ => (none : Option Bool)) = [[]] ∧
      showsNoUrlsFallback noUrlDeployment = true) :=
  ⟨by decide,
   C10_no_url_no_probe noUrlDeployment (fun _ => (none : Option Bool))
     (by decide)⟩
